import Mathlib

/-!
Verification of `.github/scripts/format-test-catalog.py`.

The script flattens YAML test-catalog files (mappings from class names to
sequences of method names) into a single text file of `Class#method` lines.
We embed the script shallowly: the filesystem (glob resolution and the result
of opening-and-`yaml.safe_load`-ing each file) is an environment of functions,
Python values are the inductive `YVal`, and the write loop of
`yaml_to_all_tests` is explicit state passing that stops at the first
uncaught exception while keeping the output written so far (the `with open`
context manager flushes and closes the output file when an exception
propagates).
-/

/-- Uncaught Python exceptions the script can raise. -/
inductive PyErr where
  /-- `yaml.YAMLError`: the file is not syntactically valid YAML. -/
  | yamlError
  /-- `OSError`: the file cannot be opened or read. -/
  | ioError
  /-- `AttributeError`: attribute lookup failed (`.items()` on a non-dict,
  or a missing `argparse.Namespace` attribute). -/
  | attributeError
  /-- `TypeError`: `for ... in v` where `v` is not iterable. -/
  | typeError
deriving DecidableEq, Repr

/-- The values `yaml.safe_load` can return that are relevant to catalog
processing: strings, `None` (empty or all-comment document), sequences and
string-keyed mappings. -/
inductive YVal where
  | str (s : String)
  | nullV
  | list (xs : List YVal)
  | map (entries : List (String × YVal))

mutual
/-- Python `repr` for the embedded values (used by `str()` on containers).
Quote-escaping subtleties are irrelevant here: no catalog processing step
formats a container. -/
def pyRepr : YVal → String
  | .str s => "'" ++ s ++ "'"
  | .nullV => "None"
  | .list xs => "[" ++ pyReprList xs ++ "]"
  | .map es => "\x7b" ++ pyReprMap es ++ "\x7d"

/-- `pyRepr` of the elements of a list, comma-separated. -/
def pyReprList : List YVal → String
  | [] => ""
  | [x] => pyRepr x
  | x :: y :: xs => pyRepr x ++ ", " ++ pyReprList (y :: xs)

/-- `pyRepr` of the entries of a dict, comma-separated. -/
def pyReprMap : List (String × YVal) → String
  | [] => ""
  | [e] => "'" ++ e.1 ++ "': " ++ pyRepr e.2
  | e :: f :: es => "'" ++ e.1 ++ "': " ++ pyRepr e.2 ++ ", " ++ pyReprMap (f :: es)
end

/-- Python `str()`, as used by the f-string `f"{clazz}#{method}\n"`. -/
def pyStr : YVal → String
  | .str s => s
  | .nullV => "None"
  | .list xs => pyRepr (.list xs)
  | .map es => pyRepr (.map es)

/-- Python iteration `for x in v`: a list yields its elements, a string
yields its characters (each a one-character string), a dict yields its keys,
and `None` raises `TypeError`. -/
def pyIter : YVal → Except PyErr (List YVal)
  | .str s => .ok (s.toList.map fun c => .str (String.singleton c))
  | .list xs => .ok xs
  | .map es => .ok (es.map fun e => .str e.1)
  | .nullV => .error .typeError

/-- Python `v.items()`: succeeds only on a dict; on any other value the
attribute lookup raises `AttributeError`. -/
def itemsOf : YVal → Except PyErr (List (String × YVal))
  | .map es => .ok es
  | _ => .error .attributeError

/-- Does the top-level document value have mapping shape? -/
def isMap : YVal → Bool
  | .map _ => true
  | _ => false

/-- The mutable state of `yaml_to_all_tests`: the chunks written to the open
output file so far (one list element per `fp.write` call, in order) and the
two counters. -/
structure RunState where
  out : List String
  class_count : Nat
  method_count : Nat
deriving DecidableEq, Repr

/-- State at the top of the `with open(out_file, "w")` block: the output
file has just been truncated and nothing is written yet. -/
def initState : RunState := { out := [], class_count := 0, method_count := 0 }

/-- The body of `for clazz, methods in tests.items()`: increment
`class_count`, then `for method in methods` increment `method_count` and
write one `f"{clazz}#{method}\n"` chunk. Starting the inner loop raises
`TypeError` when `methods` is not iterable (after the increment). -/
def processEntry (st : RunState) (entry : String × YVal) : RunState × Option PyErr :=
  let st := { st with class_count := st.class_count + 1 }
  match pyIter entry.2 with
  | .error e => (st, some e)
  | .ok ms =>
    (ms.foldl (fun t m =>
      { t with out := t.out ++ [entry.1 ++ "#" ++ pyStr m ++ "\n"],
               method_count := t.method_count + 1 }) st, none)

/-- The `for clazz, methods in tests.items()` loop, stopping at the first
uncaught exception. -/
def processEntries (st : RunState) : List (String × YVal) → RunState × Option PyErr
  | [] => (st, none)
  | e :: es =>
    match processEntry st e with
    | (st', some err) => (st', some err)
    | (st', none) => processEntries st' es

/-- Processing one parsed document: `tests.items()` (raising
`AttributeError` unless `tests` is a dict), then the entry loop. -/
def processFile (st : RunState) (doc : YVal) : RunState × Option PyErr :=
  match itemsOf doc with
  | .error e => (st, some e)
  | .ok es => processEntries st es

/-- The filesystem and YAML library, abstracted: `glob p` is the list of
paths `glob(pathname=p, recursive=True)` returns (in platform enumeration
order), and `parse f` is the result of `open(f)` followed by
`yaml.safe_load` (an exception for unreadable files or malformed YAML). -/
structure Env where
  glob : String → List String
  parse : String → Except PyErr YVal

/-- Lines 34–36: `yamls = []` then `yamls.extend(glob(...))` per pattern,
concatenating match lists in pattern order with no deduplication. -/
def resolvedFiles (env : Env) (glob_paths : List String) : List String :=
  glob_paths.foldl (fun acc p => acc ++ env.glob p) []

/-- The `for yaml_file in yamls` loop: parse each file and process it,
stopping at the first uncaught exception; the state already written is kept
(the output handle is flushed when the exception propagates). -/
def runFiles (env : Env) : List String → RunState → RunState × Option PyErr
  | [], st => (st, none)
  | f :: fs, st =>
    match env.parse f with
    | .error e => (st, some e)
    | .ok doc =>
      match processFile st doc with
      | (st', some err) => (st', some err)
      | (st', none) => runFiles env fs st'

/-- `yaml_to_all_tests(glob_paths, out_file)` (lines 32–51): resolve the
glob patterns, open the output file for writing (truncation), and run the
write loop. The result is the final state together with the uncaught
exception, if any. -/
def yaml_to_all_tests (env : Env) (glob_paths : List String) :
    RunState × Option PyErr :=
  runFiles env (resolvedFiles env glob_paths) initState

/-- The content of the output file after the run, whatever `previous`
content the file had: `open(out_file, "w")` truncates before any input file
is parsed, so the result is exactly the concatenation of the written
chunks. -/
def outputFileContent (_previous : String) (env : Env) (glob_paths : List String) :
    String :=
  String.join (yaml_to_all_tests env glob_paths).1.out

/-! ### The catalog shape the spec describes -/

/-- A catalog as the spec describes it: an ordered mapping from class names
to sequences of method names. -/
abbrev Catalog := List (String × List String)

/-- A catalog value (sequence of method-name strings) as a YAML value. -/
def catVal (ms : List String) : YVal := .list (ms.map .str)

/-- A whole catalog document as a YAML value. -/
def catDoc (c : Catalog) : YVal := .map (c.map fun e => (e.1, catVal e.2))

/-- The chunks one class entry contributes: one `class#method` line per
method, newline-terminated, in sequence order. -/
def entryLines (clazz : String) (ms : List String) : List String :=
  ms.map fun m => clazz ++ "#" ++ m ++ "\n"

/-- The chunks one catalog file contributes, in key order. -/
def catLines (c : Catalog) : List String :=
  (c.map fun e => entryLines e.1 e.2).flatten

/-- The chunks a list of catalog files contributes, in file order. -/
def expectedLines (cs : List Catalog) : List String :=
  (cs.map catLines).flatten

/-- Total number of method-sequence elements across all class keys of all
files, duplicates counted. -/
def totalMethods (cs : List Catalog) : Nat :=
  (cs.map fun c => (c.map fun e => e.2.length).sum).sum

/-- Number of lines of a newline-terminated text file: the number of
newline characters in its content. -/
def countLines (s : String) : Nat := s.toList.count '\n'

/-! ### The `__main__` block (lines 54–76) -/

/-- A value stored in an `argparse.Namespace` attribute. -/
inductive NsVal where
  | noneV
  | strV (s : String)
  | strList (xs : List String)
deriving DecidableEq, Repr

/-- Python truthiness of a namespace value (`None` and empty containers or
strings are falsy). -/
def NsVal.truthy : NsVal → Bool
  | .noneV => false
  | .strV s => decide (s ≠ "")
  | .strList xs => decide (xs ≠ [])

/-- The namespace `parser.parse_args()` returns: the parser registers
exactly the attributes `path` (default `None`, `append` action) and
`output_file` (default `"combined-test-catalog.txt"`). `cliPath` is the
list of `--path` values, when any were given. -/
def parseArgs (cliPath : Option (List String)) (cliOutputFile : String) :
    String → Option NsVal := fun n =>
  if n = "path" then some (match cliPath with
    | none => .noneV
    | some ps => .strList ps)
  else if n = "output_file" then some (.strV cliOutputFile)
  else none

/-- Python attribute read `ns.attr`: `AttributeError` when the attribute
was never set. -/
def nsGet (ns : String → Option NsVal) (attr : String) : Except PyErr NsVal :=
  match ns attr with
  | some v => .ok v
  | none => .error .attributeError

/-- Python attribute write `ns.attr = v`. -/
def nsSet (ns : String → Option NsVal) (attr : String) (v : NsVal) :
    String → Option NsVal :=
  fun n => if n = attr then some v else ns n

/-- The default glob pattern of lines 73 and 74. -/
def defaultPattern : String := "test-catalog/**/*.yaml"

/-- How an invocation of the script ends. -/
inductive MainOutcome where
  /-- Line 68–69: guard message printed, `exit(1)`. -/
  | exitGuard
  /-- An uncaught exception propagated out: non-zero process exit. -/
  | uncaught (e : PyErr)
  /-- Normal completion (exit code 0) with the final state of
  `yaml_to_all_tests`. -/
  | completed (st : RunState)
deriving DecidableEq, Repr

/-- The `__main__` block, lines 54–76. `githubWorkspace` is
`os.getenv("GITHUB_WORKSPACE")` (`none` when unset; `not` treats `None`
and the empty string alike). -/
def mainScript (env : Env) (githubWorkspace : Option String)
    (cliPath : Option (List String)) (cliOutputFile : String) : MainOutcome :=
  -- line 67: `if not os.getenv("GITHUB_WORKSPACE")`
  if (githubWorkspace.getD "") = "" then .exitGuard
  else
    -- line 71: `args = parser.parse_args()`
    let args := parseArgs cliPath cliOutputFile
    -- lines 72–73: `if args.path is None: args.path = ["test-catalog/**/*.yaml"]`
    let args := if args "path" = some .noneV
      then nsSet args "path" (.strList [defaultPattern]) else args
    -- line 74: `glob_paths = args.paths if args.paths else ["test-catalog/**/*.yaml"]`
    match nsGet args "paths" with
    | .error e => .uncaught e
    | .ok v =>
      let _glob_paths := if v.truthy then v else .strList [defaultPattern]
      -- `glob_paths` is never used after line 74
      -- line 76: `yaml_to_all_tests(args.path, args.output_file)`; after
      -- line 73 the `path` attribute is always a list of strings
      let ps := match nsGet args "path" with
        | .ok (.strList l) => l
        | _ => []
      match yaml_to_all_tests env ps with
      | (_, some e) => .uncaught e
      | (st, none) => .completed st

/-! ### Concrete environments for witnesses and counterexamples -/

/-- One catalog file `{"Foo": ["a", "b"]}` matched by pattern `p`. -/
def envFooAB : Env where
  glob := fun p => if p = "p" then ["cat1.yaml"] else []
  parse := fun f => if f = "cat1.yaml" then .ok (catDoc [("Foo", ["a", "b"])])
    else .error .ioError

/-- One catalog file whose single method name contains a newline. -/
def envNewlineName : Env where
  glob := fun p => if p = "p" then ["nl.yaml"] else []
  parse := fun f => if f = "nl.yaml" then .ok (catDoc [("Foo", ["a\nb"])])
    else .error .ioError

/-- Two distinct files with identical content `{"Foo": ["a"]}`: pattern `p1`
matches both, and patterns `p2` and `p3` each match the first one. -/
def envTwin : Env where
  glob := fun p => if p = "p1" then ["x.yaml", "y.yaml"]
    else if p = "p2" then ["x.yaml"]
    else if p = "p3" then ["x.yaml"]
    else []
  parse := fun f => if f = "x.yaml" ∨ f = "y.yaml" then .ok (catDoc [("Foo", ["a"])])
    else .error .ioError

/-- One file that is a mapping whose value is the single string `"ab"`
rather than a sequence. -/
def envStrValue : Env where
  glob := fun p => if p = "p" then ["str.yaml"] else []
  parse := fun f => if f = "str.yaml" then .ok (.map [("Foo", .str "ab")])
    else .error .ioError

/-- One file whose top-level document is a sequence, not a mapping. -/
def envSeqDoc : Env where
  glob := fun p => if p = "p" then ["seq.yaml"] else []
  parse := fun f => if f = "seq.yaml" then .ok (.list [.str "Foo"])
    else .error .ioError

/-- A good catalog file followed by a file with malformed YAML syntax. -/
def envMalformed : Env where
  glob := fun p => if p = "p" then ["good.yaml", "bad.yaml"] else []
  parse := fun f => if f = "good.yaml" then .ok (catDoc [("Foo", ["a"])])
    else if f = "bad.yaml" then .error .yamlError
    else .error .ioError

/-- Every pattern matches zero files. -/
def envNoMatch : Env where
  glob := fun _ => []
  parse := fun _ => .error .ioError

/-- One catalog file whose two class keys both have empty method
sequences. -/
def envEmptySeqs : Env where
  glob := fun p => if p = "p" then ["empty.yaml"] else []
  parse := fun f => if f = "empty.yaml" then .ok (catDoc [("A", []), ("B", [])])
    else .error .ioError

/-- One matched file that is an empty YAML document (`yaml.safe_load`
returns `None`). -/
def envNullDoc : Env where
  glob := fun p => if p = "p" then ["null.yaml"] else []
  parse := fun f => if f = "null.yaml" then .ok .nullV else .error .ioError

example : yaml_to_all_tests envFooAB ["p"] =
    ({ out := ["Foo#a\n", "Foo#b\n"], class_count := 1, method_count := 2 }, none) := by
  decide

example : outputFileContent "stale" envFooAB ["p"] = "Foo#a\nFoo#b\n" := by decide

example : yaml_to_all_tests envStrValue ["p"] =
    ({ out := ["Foo#a\n", "Foo#b\n"], class_count := 1, method_count := 2 }, none) := by
  decide

example : mainScript envFooAB (some "/w") none "out.txt" =
    .uncaught .attributeError := by decide

example : countLines (outputFileContent "" envNewlineName ["p"]) = 2 := by decide

/-! ### General lemmas about the run -/

theorem resolvedFiles_eq_flatten (env : Env) (ps : List String) :
    resolvedFiles env ps = (ps.map env.glob).flatten := by
  suffices h : ∀ acc : List String,
      ps.foldl (fun acc p => acc ++ env.glob p) acc = acc ++ (ps.map env.glob).flatten by
    simpa using h []
  induction ps with
  | nil => intro acc; simp
  | cons p ps ih => intro acc; simp [ih, List.append_assoc]

theorem string_join_data (ls : List String) :
    (String.join ls).data = (ls.map String.data).flatten := by
  suffices h : ∀ acc : String,
      (ls.foldl (fun r s => r ++ s) acc).data = acc.data ++ (ls.map String.data).flatten by
    simpa [String.join] using h ""
  induction ls with
  | nil => intro acc; simp
  | cons a ls ih => intro acc; simp [ih, String.data_append, List.append_assoc]

theorem string_join_cons (a : String) (ls : List String) :
    String.join (a :: ls) = a ++ String.join ls := by
  apply String.ext
  simp [string_join_data, String.data_append]

theorem countLines_append (a b : String) :
    countLines (a ++ b) = countLines a + countLines b := by
  simp [countLines, String.toList, String.data_append, List.count_append]

theorem countLines_join (ls : List String) :
    countLines (String.join ls) = (ls.map countLines).sum := by
  induction ls with
  | nil => rfl
  | cons a ls ih => simp [string_join_cons, countLines_append, ih]

theorem processEntry_catVal (st : RunState) (k : String) (ms : List String) :
    processEntry st (k, catVal ms) =
      ({ out := st.out ++ entryLines k ms,
         class_count := st.class_count + 1,
         method_count := st.method_count + ms.length }, none) := by
  suffices h : ∀ t : RunState,
      (ms.map YVal.str).foldl (fun t m =>
        { t with out := t.out ++ [k ++ "#" ++ pyStr m ++ "\n"],
                 method_count := t.method_count + 1 }) t =
      { t with out := t.out ++ entryLines k ms,
               method_count := t.method_count + ms.length } by
    simp [processEntry, catVal, pyIter, h]
  induction ms with
  | nil => intro t; simp [entryLines]
  | cons m ms ih =>
    intro t
    rw [List.map_cons, List.foldl_cons, ih]
    simp [entryLines, pyStr, Nat.add_comm, Nat.add_assoc, Nat.add_left_comm]

theorem processEntries_catalog (c : Catalog) (st : RunState) :
    processEntries st (c.map fun e => (e.1, catVal e.2)) =
      ({ out := st.out ++ catLines c,
         class_count := st.class_count + c.length,
         method_count := st.method_count + (c.map fun e => e.2.length).sum }, none) := by
  induction c generalizing st with
  | nil => simp [processEntries, catLines]
  | cons e es ih =>
    simp [processEntries, processEntry_catVal, ih, catLines,
      Nat.add_comm, Nat.add_assoc, Nat.add_left_comm]

theorem processFile_catDoc (c : Catalog) (st : RunState) :
    processFile st (catDoc c) =
      ({ out := st.out ++ catLines c,
         class_count := st.class_count + c.length,
         method_count := st.method_count + (c.map fun e => e.2.length).sum }, none) := by
  simp [processFile, catDoc, itemsOf, processEntries_catalog]

theorem expectedLines_cons (c : Catalog) (cs : List Catalog) :
    expectedLines (c :: cs) = catLines c ++ expectedLines cs := by
  simp [expectedLines]

theorem totalMethods_cons (c : Catalog) (cs : List Catalog) :
    totalMethods (c :: cs) = (c.map fun e => e.2.length).sum + totalMethods cs := by
  simp [totalMethods]

theorem catLines_length (c : Catalog) :
    (catLines c).length = (c.map fun e => e.2.length).sum := by
  simp [catLines, entryLines, List.length_flatten, Function.comp_def]

theorem expectedLines_length (cs : List Catalog) :
    (expectedLines cs).length = totalMethods cs := by
  induction cs with
  | nil => rfl
  | cons c cs ih => simp [expectedLines_cons, totalMethods_cons, catLines_length, ih]

theorem runFiles_cons_err (env : Env) (f : String) (fs : List String)
    (st : RunState) (e : PyErr) (hp : env.parse f = .error e) :
    runFiles env (f :: fs) st = (st, some e) := by
  rw [runFiles, hp]

theorem runFiles_cons_ok_err (env : Env) (f : String) (fs : List String)
    (st : RunState) (doc : YVal) (st₁ : RunState) (e : PyErr)
    (hp : env.parse f = .ok doc) (hq : processFile st doc = (st₁, some e)) :
    runFiles env (f :: fs) st = (st₁, some e) := by
  rw [runFiles, hp]
  dsimp only
  rw [hq]

theorem runFiles_cons_ok_none (env : Env) (f : String) (fs : List String)
    (st : RunState) (doc : YVal) (st₁ : RunState)
    (hp : env.parse f = .ok doc) (hq : processFile st doc = (st₁, none)) :
    runFiles env (f :: fs) st = runFiles env fs st₁ := by
  rw [runFiles, hp]
  dsimp only
  rw [hq]

theorem processFile_nonmap (st : RunState) (doc : YVal) (hm : isMap doc = false) :
    processFile st doc = (st, some .attributeError) := by
  cases doc with
  | str s => rfl
  | nullV => rfl
  | list xs => rfl
  | map es => simp [isMap] at hm

theorem runFiles_valid (env : Env) (cat : String → Catalog)
    (fs : List String) (st : RunState)
    (h : ∀ f ∈ fs, env.parse f = .ok (catDoc (cat f))) :
    runFiles env fs st =
      ({ out := st.out ++ expectedLines (fs.map cat),
         class_count := st.class_count + (fs.map fun f => (cat f).length).sum,
         method_count := st.method_count + totalMethods (fs.map cat) }, none) := by
  induction fs generalizing st with
  | nil => simp [runFiles, expectedLines, totalMethods]
  | cons f fs ih =>
    have hf : env.parse f = .ok (catDoc (cat f)) := h f (List.mem_cons_self f fs)
    rw [runFiles_cons_ok_none env f fs st (catDoc (cat f)) _ hf (processFile_catDoc _ st)]
    rw [ih _ (fun g hg => h g (List.mem_cons_of_mem f hg))]
    simp [expectedLines_cons, totalMethods_cons, List.append_assoc,
      Nat.add_comm, Nat.add_assoc, Nat.add_left_comm]

theorem runFiles_append_ok (env : Env) (as bs : List String) (st st' : RunState)
    (h : runFiles env as st = (st', none)) :
    runFiles env (as ++ bs) st = runFiles env bs st' := by
  induction as generalizing st with
  | nil =>
    simp [runFiles] at h
    simp [h]
  | cons f fs ih =>
    cases hp : env.parse f with
    | error e =>
      rw [runFiles_cons_err env f fs st e hp] at h
      exact absurd h (by simp)
    | ok doc =>
      cases hq : processFile st doc with
      | mk st₁ r =>
        cases r with
        | some e =>
          rw [runFiles_cons_ok_err env f fs st doc st₁ e hp hq] at h
          exact absurd h (by simp)
        | none =>
          rw [runFiles_cons_ok_none env f fs st doc st₁ hp hq] at h
          rw [List.cons_append, runFiles_cons_ok_none env f (fs ++ bs) st doc st₁ hp hq]
          exact ih st₁ h

theorem runFiles_err_of_nonmap (env : Env) (fs : List String) (st : RunState)
    (f : String) (doc : YVal) (hf : f ∈ fs) (hp : env.parse f = .ok doc)
    (hm : isMap doc = false) :
    ((runFiles env fs st).2).isSome := by
  induction fs generalizing st with
  | nil => cases hf
  | cons g gs ih =>
    rcases List.mem_cons.mp hf with rfl | hmem
    · rw [runFiles_cons_ok_err env f gs st doc st PyErr.attributeError hp
        (processFile_nonmap st doc hm)]
      rfl
    · cases hpg : env.parse g with
      | error e => rw [runFiles_cons_err env g gs st e hpg]; rfl
      | ok d =>
        cases hq : processFile st d with
        | mk st₁ r =>
          cases r with
          | some e => rw [runFiles_cons_ok_err env g gs st d st₁ e hpg hq]; rfl
          | none =>
            rw [runFiles_cons_ok_none env g gs st d st₁ hpg hq]
            exact ih st₁ hmem

theorem countLines_line (k m : String) :
    countLines (k ++ "#" ++ m ++ "\n") = countLines k + countLines m + 1 := by
  simp [countLines_append, show countLines "#" = 0 from rfl,
    show countLines "\n" = 1 from rfl]

theorem countLines_entryLines (k : String) (ms : List String)
    (hk : countLines k = 0) (hms : ∀ m ∈ ms, countLines m = 0) :
    ((entryLines k ms).map countLines).sum = ms.length := by
  induction ms with
  | nil => rfl
  | cons m ms ih =>
    have h2 := ih (fun x hx => hms x (List.mem_cons_of_mem m hx))
    simp only [entryLines, List.map_cons, List.sum_cons, List.length_cons] at h2 ⊢
    rw [countLines_line, hk, hms m (List.mem_cons_self m ms), h2]
    omega

theorem countLines_catLines (c : Catalog)
    (h : ∀ e ∈ c, countLines e.1 = 0 ∧ ∀ m ∈ e.2, countLines m = 0) :
    ((catLines c).map countLines).sum = (c.map fun e => e.2.length).sum := by
  induction c with
  | nil => rfl
  | cons e es ih =>
    obtain ⟨hk, hm⟩ := h e (List.mem_cons_self e es)
    have ih' := ih (fun x hx => h x (List.mem_cons_of_mem e hx))
    simp only [catLines, List.map_cons, List.flatten_cons, List.map_append,
      List.sum_append, List.sum_cons] at ih' ⊢
    rw [countLines_entryLines e.1 e.2 hk hm, ih']

theorem countLines_expectedLines (cs : List Catalog)
    (h : ∀ c ∈ cs, ∀ e ∈ c, countLines e.1 = 0 ∧ ∀ m ∈ e.2, countLines m = 0) :
    ((expectedLines cs).map countLines).sum = totalMethods cs := by
  induction cs with
  | nil => rfl
  | cons c cs ih =>
    have ih' := ih (fun x hx => h x (List.mem_cons_of_mem c hx))
    rw [expectedLines_cons, totalMethods_cons, List.map_append, List.sum_append,
      countLines_catLines c (h c (List.mem_cons_self c cs)), ih']

theorem catLines_nil_of_empty (c : Catalog)
    (h : ∀ e ∈ c, e.2 = ([] : List String)) :
    catLines c = [] := by
  induction c with
  | nil => rfl
  | cons e es ih =>
    have he := h e (List.mem_cons_self e es)
    have ih' := ih (fun x hx => h x (List.mem_cons_of_mem e hx))
    simp only [catLines, List.map_cons, List.flatten_cons] at ih' ⊢
    rw [ih', he]
    rfl

/-! ### The claims -/

/-- C1: when every resolved input file parses as a mapping from class-name
strings to sequences of method-name strings, the run succeeds and the
output file contains exactly the concatenation — in file enumeration order,
then key order, then sequence order — of one newline-terminated
`class#method` line per (class, method) pair, whatever the file held
before. -/
theorem yaml_to_all_tests_writes_concatenation (env : Env) (ps : List String)
    (cat : String → Catalog)
    (h : ∀ f ∈ resolvedFiles env ps, env.parse f = .ok (catDoc (cat f))) :
    (yaml_to_all_tests env ps).2 = none ∧
    ∀ prev, outputFileContent prev env ps =
      String.join (expectedLines ((resolvedFiles env ps).map cat)) := by
  have hr := runFiles_valid env cat (resolvedFiles env ps) initState h
  constructor
  · rw [yaml_to_all_tests, hr]
  · intro prev
    rw [outputFileContent, yaml_to_all_tests, hr]
    simp [initState]

/-- Witness for C1 at the single file `{"Foo": ["a", "b"]}`: the output is
exactly `Foo#a\nFoo#b\n`. -/
theorem yaml_to_all_tests_writes_concatenation_witness :
    (yaml_to_all_tests envFooAB ["p"]).2 = none ∧
    outputFileContent "old content" envFooAB ["p"] = "Foo#a\nFoo#b\n" := by
  have h := yaml_to_all_tests_writes_concatenation envFooAB ["p"]
    (fun _ => [("Foo", ["a", "b"])]) (by
      intro f hf
      have hres : resolvedFiles envFooAB ["p"] = ["cat1.yaml"] := rfl
      rw [hres] at hf
      rw [List.mem_singleton.mp hf]
      rfl)
  exact ⟨h.1, by rw [h.2 "old content"]; rfl⟩

/-- C3: glob patterns are expanded independently and concatenated in
pattern order with no deduplication; two identical files matched once each
produce `Foo#a` twice, and one file matched by two patterns is processed
twice. -/
theorem glob_expansion_concatenated_no_dedup :
    (∀ (env : Env) (ps : List String),
      resolvedFiles env ps = (ps.map env.glob).flatten) ∧
    resolvedFiles envTwin ["p1"] = ["x.yaml", "y.yaml"] ∧
    outputFileContent "" envTwin ["p1"] = "Foo#a\nFoo#a\n" ∧
    resolvedFiles envTwin ["p2", "p3"] = ["x.yaml", "x.yaml"] ∧
    outputFileContent "" envTwin ["p2", "p3"] = "Foo#a\nFoo#a\n" := by
  refine ⟨resolvedFiles_eq_flatten, by decide, by decide, by decide, by decide⟩

/-- C8: when the patterns resolve to zero files the run still succeeds,
and the output file exists and is empty whatever it contained before. -/
theorem zero_matches_empty_output (env : Env) (ps : List String)
    (h : resolvedFiles env ps = []) :
    yaml_to_all_tests env ps = (initState, none) ∧
    ∀ prev, outputFileContent prev env ps = "" := by
  constructor
  · rw [yaml_to_all_tests, h]; rfl
  · intro prev; rw [outputFileContent, yaml_to_all_tests, h]; rfl

/-- Witness for C8: two patterns matching nothing give the empty output
file. -/
theorem zero_matches_empty_output_witness :
    yaml_to_all_tests envNoMatch ["p", "q"] = (initState, none) ∧
    outputFileContent "previous" envNoMatch ["p", "q"] = "" := by
  have h := zero_matches_empty_output envNoMatch ["p", "q"] rfl
  exact ⟨h.1, h.2 "previous"⟩

/-- C2 counterexample: the file `{"Foo": ["a\nb"]}` is a mapping from a
string to a sequence of strings, the run succeeds, but the output file
`Foo#a\nb\n` has two lines while the total number of method-sequence
elements is one. -/
theorem newline_method_breaks_line_count :
    (yaml_to_all_tests envNewlineName ["p"]).2 = none ∧
    totalMethods ((resolvedFiles envNewlineName ["p"]).map
      fun _ => [("Foo", ["a\nb"])]) = 1 ∧
    countLines (outputFileContent "" envNewlineName ["p"]) ≠
      totalMethods ((resolvedFiles envNewlineName ["p"]).map
        fun _ => [("Foo", ["a\nb"])]) := by
  refine ⟨by decide, by decide, by decide⟩

/-- C2 (amended): provided no class or method name contains a newline
character, the number of lines in the output file equals the sum, over all
resolved files, of the lengths of all method sequences across all class
keys, counting duplicates across files. -/
theorem line_count_equals_total_methods (env : Env) (ps : List String)
    (cat : String → Catalog)
    (h : ∀ f ∈ resolvedFiles env ps, env.parse f = .ok (catDoc (cat f)))
    (hnl : ∀ f ∈ resolvedFiles env ps, ∀ e ∈ cat f,
      countLines e.1 = 0 ∧ ∀ m ∈ e.2, countLines m = 0) :
    ∀ prev, countLines (outputFileContent prev env ps) =
      totalMethods ((resolvedFiles env ps).map cat) := by
  intro prev
  have hr := runFiles_valid env cat (resolvedFiles env ps) initState h
  rw [outputFileContent, yaml_to_all_tests, hr]
  simp only [initState, List.nil_append]
  rw [countLines_join]
  refine countLines_expectedLines _ ?_
  intro c hc
  obtain ⟨f, hf, rfl⟩ := List.mem_map.mp hc
  exact hnl f hf

/-- Witness for the amended C2 at `{"Foo": ["a", "b"]}`: two lines, two
elements. -/
theorem line_count_equals_total_methods_witness :
    countLines (outputFileContent "x" envFooAB ["p"]) = 2 ∧
    totalMethods ((resolvedFiles envFooAB ["p"]).map
      fun _ => [("Foo", ["a", "b"])]) = 2 := by
  have h := line_count_equals_total_methods envFooAB ["p"]
    (fun _ => [("Foo", ["a", "b"])])
    (by
      intro f hf
      have hres : resolvedFiles envFooAB ["p"] = ["cat1.yaml"] := rfl
      rw [hres] at hf
      rw [List.mem_singleton.mp hf]
      rfl)
    (by
      intro f _
      show ∀ e ∈ [("Foo", ["a", "b"])], countLines e.1 = 0 ∧ ∀ m ∈ e.2, countLines m = 0
      decide)
  refine ⟨?_, by decide⟩
  rw [h "x"]
  decide

/-- C4 (code bug): every invocation of the script either stops at the
`GITHUB_WORKSPACE` guard or raises `AttributeError` at line 74, because
`args.paths` is read while the parser only defines the attribute `path`;
the flattening transform is never reached, with or without `--path`. -/
theorem mainScript_never_runs_transform (env : Env) (gw : Option String)
    (cliPath : Option (List String)) (cliOutputFile : String) :
    mainScript env gw cliPath cliOutputFile = .exitGuard ∨
    mainScript env gw cliPath cliOutputFile = .uncaught .attributeError := by
  rw [mainScript]
  by_cases hgw : (gw.getD "") = ""
  · left; rw [if_pos hgw]
  · right
    rw [if_neg hgw]
    cases cliPath with
    | none => rfl
    | some l => rfl

/-- C5 counterexample: a file whose top-level value is a mapping from a
string to a single string does not abort the run: Python iterates the
string, so `{"Foo": "ab"}` succeeds and writes one line per character. -/
theorem string_valued_mapping_does_not_abort :
    (yaml_to_all_tests envStrValue ["p"]).2 = none ∧
    yaml_to_all_tests envStrValue ["p"] =
      ({ out := ["Foo#a\n", "Foo#b\n"], class_count := 1, method_count := 2 },
        none) := by
  refine ⟨by decide, by decide⟩

/-- C5 (amended): for every resolved input file that is valid YAML but
whose top-level value is not a mapping, the whole run aborts with a
propagated error (non-zero exit); a mapping whose value is a single string
does not abort but is iterated character by character. -/
theorem nonmapping_document_aborts (env : Env) (ps : List String)
    (f : String) (doc : YVal) (hf : f ∈ resolvedFiles env ps)
    (hp : env.parse f = .ok doc) (hm : isMap doc = false) :
    ((yaml_to_all_tests env ps).2).isSome := by
  exact runFiles_err_of_nonmap env (resolvedFiles env ps) initState f doc hf hp hm

/-- Witness for the amended C5: a file whose top level is a sequence aborts
the run. -/
theorem nonmapping_document_aborts_witness :
    ((yaml_to_all_tests envSeqDoc ["p"]).2).isSome = true ∧
    (yaml_to_all_tests envSeqDoc ["p"]).2 = some .attributeError := by
  refine ⟨nonmapping_document_aborts envSeqDoc ["p"] "seq.yaml"
    (.list [.str "Foo"]) (by decide) rfl rfl, by decide⟩

/-- C6: if the files before `f` in enumeration order are well-formed
catalogs and `f` fails to parse, the run aborts with that error and the
output file holds exactly the lines written before `f` was parsed
(possibly none), never its pre-run content. -/
theorem malformed_yaml_keeps_written_output (env : Env) (ps : List String)
    (cat : String → Catalog) (pre post : List String) (f : String) (e : PyErr)
    (hsplit : resolvedFiles env ps = pre ++ f :: post)
    (hpre : ∀ g ∈ pre, env.parse g = .ok (catDoc (cat g)))
    (hf : env.parse f = .error e) :
    (yaml_to_all_tests env ps).2 = some e ∧
    ∀ prev, outputFileContent prev env ps =
      String.join (expectedLines (pre.map cat)) := by
  have hr := runFiles_valid env cat pre initState hpre
  have happ := runFiles_append_ok env pre (f :: post) initState _ hr
  have hrun : yaml_to_all_tests env ps =
      ({ out := initState.out ++ expectedLines (pre.map cat),
         class_count := initState.class_count + (pre.map fun g => (cat g).length).sum,
         method_count := initState.method_count + totalMethods (pre.map cat) },
        some e) := by
    rw [yaml_to_all_tests, hsplit, happ, runFiles_cons_err env f post _ e hf]
  refine ⟨by rw [hrun], ?_⟩
  intro prev
  rw [outputFileContent, hrun]
  simp [initState]

/-- Witness for C6: a good file `{"Foo": ["a"]}` followed by a malformed
file leaves `Foo#a\n` in the truncated output file and aborts with the
parse error. -/
theorem malformed_yaml_keeps_written_output_witness :
    (yaml_to_all_tests envMalformed ["p"]).2 = some .yamlError ∧
    outputFileContent "leftover" envMalformed ["p"] = "Foo#a\n" := by
  have h := malformed_yaml_keeps_written_output envMalformed ["p"]
    (fun _ => [("Foo", ["a"])]) ["good.yaml"] [] "bad.yaml" .yamlError rfl
    (by
      intro g hg
      rw [List.mem_singleton.mp hg]
      rfl)
    rfl
  exact ⟨h.1, by rw [h.2 "leftover"]; rfl⟩

/-- C7: on a run over well-formed catalogs, after any prefix of the file
list the class counter equals the number of (file, class-key) occurrences
processed so far and the method counter equals the number of lines written
so far; on completion they are the reported totals. -/
theorem counters_track_progress (env : Env) (ps : List String)
    (cat : String → Catalog)
    (h : ∀ f ∈ resolvedFiles env ps, env.parse f = .ok (catDoc (cat f))) :
    (∀ n,
      (runFiles env ((resolvedFiles env ps).take n) initState).1.class_count =
        (((resolvedFiles env ps).take n).map fun f => (cat f).length).sum ∧
      (runFiles env ((resolvedFiles env ps).take n) initState).1.method_count =
        (runFiles env ((resolvedFiles env ps).take n) initState).1.out.length) ∧
    (yaml_to_all_tests env ps).1.class_count =
      ((resolvedFiles env ps).map fun f => (cat f).length).sum ∧
    (yaml_to_all_tests env ps).1.method_count =
      totalMethods ((resolvedFiles env ps).map cat) := by
  have hfull := runFiles_valid env cat (resolvedFiles env ps) initState h
  refine ⟨?_, ?_, ?_⟩
  · intro n
    have hr := runFiles_valid env cat ((resolvedFiles env ps).take n) initState
      (fun f hf => h f (List.take_subset n _ hf))
    rw [hr]
    refine ⟨by simp [initState], ?_⟩
    simp [initState, expectedLines_length]
  · rw [yaml_to_all_tests, hfull]; simp [initState]
  · rw [yaml_to_all_tests, hfull]; simp [initState]

/-- Witness for C7 at the single file `{"Foo": ["a", "b"]}`: one class
occurrence, two method lines, matching the state after the one-file
prefix and the reported totals. -/
theorem counters_track_progress_witness :
    (runFiles envFooAB ((resolvedFiles envFooAB ["p"]).take 1) initState).1.class_count = 1 ∧
    (yaml_to_all_tests envFooAB ["p"]).1.class_count = 1 ∧
    (yaml_to_all_tests envFooAB ["p"]).1.method_count = 2 := by
  have h := counters_track_progress envFooAB ["p"]
    (fun _ => [("Foo", ["a", "b"])]) (by
      intro f hf
      have hres : resolvedFiles envFooAB ["p"] = ["cat1.yaml"] := rfl
      rw [hres] at hf
      rw [List.mem_singleton.mp hf]
      rfl)
  refine ⟨?_, ?_, ?_⟩
  · rw [(h.1 1).1]; decide
  · rw [h.2.1]; decide
  · rw [h.2.2]; decide

/-- C9: a class key with an empty method sequence produces no output line
but still increments the class counter; a catalog of only empty sequences
gives an empty output file, a successful run, and a class count equal to
the number of keys. -/
theorem empty_method_sequences (env : Env) (ps : List String)
    (cat : String → Catalog)
    (h : ∀ f ∈ resolvedFiles env ps, env.parse f = .ok (catDoc (cat f)))
    (hempty : ∀ f ∈ resolvedFiles env ps, ∀ e ∈ cat f, e.2 = ([] : List String)) :
    (∀ (st : RunState) (k : String), processEntry st (k, catVal []) =
      ({ st with class_count := st.class_count + 1 }, none)) ∧
    (yaml_to_all_tests env ps).2 = none ∧
    (∀ prev, outputFileContent prev env ps = "") ∧
    (yaml_to_all_tests env ps).1.class_count =
      ((resolvedFiles env ps).map fun f => (cat f).length).sum := by
  have hr := runFiles_valid env cat (resolvedFiles env ps) initState h
  have hlines : expectedLines ((resolvedFiles env ps).map cat) = [] := by
    rw [expectedLines]
    rw [List.flatten_eq_nil_iff]
    intro l hl
    rw [List.map_map] at hl
    obtain ⟨f, hf, rfl⟩ := List.mem_map.mp hl
    exact catLines_nil_of_empty (cat f) (hempty f hf)
  refine ⟨fun st k => rfl, ?_, ?_, ?_⟩
  · rw [yaml_to_all_tests, hr]
  · intro prev
    rw [outputFileContent, yaml_to_all_tests, hr]
    simp only [initState, List.nil_append, hlines]
    rfl
  · rw [yaml_to_all_tests, hr]; simp [initState]

/-- Witness for C9 at `{"A": [], "B": []}`: empty output, successful run,
class count 2 (in particular non-zero). -/
theorem empty_method_sequences_witness :
    (yaml_to_all_tests envEmptySeqs ["p"]).2 = none ∧
    outputFileContent "old" envEmptySeqs ["p"] = "" ∧
    (yaml_to_all_tests envEmptySeqs ["p"]).1.class_count = 2 ∧
    0 < (yaml_to_all_tests envEmptySeqs ["p"]).1.class_count := by
  have h := empty_method_sequences envEmptySeqs ["p"]
    (fun _ => [("A", []), ("B", [])])
    (by
      intro f hf
      have hres : resolvedFiles envEmptySeqs ["p"] = ["empty.yaml"] := rfl
      rw [hres] at hf
      rw [List.mem_singleton.mp hf]
      rfl)
    (by
      intro f _
      show ∀ e ∈ [("A", ([] : List String)), ("B", [])], e.2 = []
      decide)
  refine ⟨h.2.1, h.2.2.1 "old", ?_, ?_⟩
  · rw [h.2.2.2]; decide
  · rw [h.2.2.2]; decide

/-- C10: a matched file that parses to `None` (empty or all-comment YAML
document) aborts the whole run with an error instead of contributing zero
entries. -/
theorem null_document_aborts (env : Env) (ps : List String) (f : String)
    (hf : f ∈ resolvedFiles env ps) (hp : env.parse f = .ok .nullV) :
    ((yaml_to_all_tests env ps).2).isSome := by
  exact runFiles_err_of_nonmap env (resolvedFiles env ps) initState f .nullV hf hp rfl

/-- Witness for C10: a single empty document aborts with `AttributeError`
(`NoneType` has no `.items`) and nothing is written. -/
theorem null_document_aborts_witness :
    ((yaml_to_all_tests envNullDoc ["p"]).2).isSome = true ∧
    yaml_to_all_tests envNullDoc ["p"] = (initState, some .attributeError) := by
  refine ⟨null_document_aborts envNullDoc ["p"] "null.yaml" (by decide) rfl,
    by decide⟩
